import Mathlib

/-!
# Verification of the winas VFS core (src/src/fruitmix/VFS.js)

This file gives a shallow embedding, in Lean 4, of the parts of the winas
virtual-file-system module that the specification's claims are about:

* drive write-permission resolution (`userCanWriteDrive`, VFS.js 230-242),
* directory resolution (`DIR`, VFS.js 380-418, and `dirGET`, VFS.js 306-353),
* the APPEND content-integrity protocol (VFS.js 561-644),
* tag mutation (`ADDTAGS`/`REMOVETAGS`/`SETTAGS`, VFS.js 660-787),
* `RMDIR` (VFS.js 1002-1017),
* the chronological query path (`QUERY`, VFS.js 1040-1191, and
  `iterateList`, VFS.js 1196-1316).

JavaScript values are modelled as follows: JS numbers that are always
integers in the source are `Int` (or `Nat` for sizes/counts), possibly-absent
JS values (`undefined`) are `Option`, JS arrays are `List`, and NaN produced
by a failed numeric conversion is `Option.none`.  Stateful callback code is
modelled as pure functions from the state read by the operation to an
explicit outcome; filesystem side effects (btrfs concat, fs.rmdir) are
recorded as fields of the outcome rather than performed.
-/

namespace Winas

/-! ## Users and drives (observed rosters, VFS.js 113-122) -/

/-- A user record, reduced to the only field the VFS reads: `uuid`. -/
structure UserRec where
  uuid : String
deriving DecidableEq, Repr

/-- A drive record as read by the VFS: `privacy` is a JS boolean that may be
absent (`drv.privacy === true` / `=== false` are distinct tests in the
source), `typ` is the drive type string (`drive.type`), `writelist` may be
absent or an array. -/
structure DriveRec where
  uuid : String
  privacy : Option Bool
  typ : String
  owner : String
  writelist : Option (List String)
  isDeleted : Bool
deriving DecidableEq, Repr

/-- `userCanWriteDrive` (VFS.js 230-242): private and backup drives are
writable only by their owner; public drives by everyone unless a
`writelist` array restricts them. -/
def userCanWriteDrive (user : UserRec) (drive : DriveRec) : Bool :=
  if drive.privacy = some true || drive.typ = "backup" then
    user.uuid = drive.owner
  else if drive.privacy = some false then
    match drive.writelist with
    | some wl => wl.contains user.uuid
    | none => true
  else
    false

/-! ## Xstat records and the APPEND protocol (VFS.js 561-644)

`readXstat` (lib/xstat, a collaborator) returns the per-entry record stored
in extended attributes.  We model the fields APPEND reads. -/

/-- The xstat record of the APPEND target as returned by `readXstat`. -/
structure Xstat where
  uuid : String
  typ : String
  name : String
  size : Nat
  mtime : Int
  hash : Option String
deriving DecidableEq, Repr

/-- The target file as APPEND observes and replaces it: its xstat plus its
byte content (bytes as `Nat`s below 256; the content participates only in
the success-path concatenation). -/
structure FileState where
  xstat : Xstat
  content : List Nat
deriving DecidableEq, Repr

/-- Value of one hex digit, as accepted by Node's `Buffer.from(str, 'hex')`. -/
def hexVal (c : Char) : Option Nat :=
  if '0' ≤ c ∧ c ≤ '9' then some (c.toNat - '0'.toNat)
  else if 'a' ≤ c ∧ c ≤ 'f' then some (c.toNat - 'a'.toNat + 10)
  else if 'A' ≤ c ∧ c ≤ 'F' then some (c.toNat - 'A'.toNat + 10)
  else none

/-- `Buffer.from(s, 'hex')`: decode hex-digit pairs into bytes, stopping at
the first invalid pair; a dangling odd digit is dropped. -/
def hexPairs : List Char → List Nat
  | c1 :: c2 :: rest =>
    match hexVal c1, hexVal c2 with
    | some h, some l => (16 * h + l) :: hexPairs rest
    | _, _ => []
  | _ => []

/-- Hex-decode a string to bytes (`Buffer.from(s, 'hex')`). -/
def hexDecode (s : String) : List Nat := hexPairs s.data

/-- `combineHash` (VFS.js 620-627): hex-decode the two hash strings,
concatenate the byte buffers and digest with SHA-256.  The SHA-256 digest
function of node `crypto` is external to the repository, so it is passed in
as `sha : List Nat → String` (bytes in, hex digest string out). -/
def combineHash (sha : List Nat → String) (a b : String) : String :=
  sha (hexDecode a ++ hexDecode b)

/-- Outcome reported through APPEND's callback. -/
inductive AppendOutcome where
  /-- `cb(err)` with `err.message`, `err.code`, `err.status`. -/
  | err (msg code : String) (status : Nat)
  /-- `cb(null, xstat2)` with the xstat of the replacement file. -/
  | ok (xstat2 : Xstat)
deriving DecidableEq, Repr

/-- Everything observable about one APPEND run: the callback outcome, the
target file afterwards, and whether `btrfsConcat` was ever invoked. -/
structure AppendRun where
  outcome : AppendOutcome
  state : FileState
  concatCalled : Bool
deriving DecidableEq, Repr

/-- The append alignment unit, fixed in the source as `1024 * 1024 * 1024`
(VFS.js 587). -/
def alignUnit : Nat := 1024 * 1024 * 1024

/-- `APPEND` (VFS.js 561-644), from the point where `readXstat(target)` has
succeeded with `st.xstat`.  Arguments mirror the source:

* `sha` - the external SHA-256 digest function used by `combineHash`;
* `st` - the target file (xstat and content);
* `suppliedHash` - `props.hash`, the caller's fingerprint of the target;
* `data`, `dataSha` - the appended temp file's bytes and `props.sha256`;
* `diskMtime` - what `fs.lstat(target)` reports after the concat (the race
  check compares it with the captured `xstat.mtime`);
* `newMtime` - the mtime the replacement file ends with.

Checks in source order: not-a-file (EISDIR 403), alignment (EALIGN 403),
fingerprint match (EHASHMISMATCH 403), then `btrfsConcat`, then the race
check (ERACE 403), then `forceXstat` with the combined hash and the atomic
rename over the target. -/
def APPEND (sha : List Nat → String) (st : FileState) (suppliedHash : String)
    (data : List Nat) (dataSha : String) (diskMtime newMtime : Int) : AppendRun :=
  if st.xstat.typ ≠ "file" then
    ⟨.err "not a file" "EISDIR" 403, st, false⟩
  else if st.xstat.size % alignUnit ≠ 0 then
    ⟨.err "not a multiple of 1G" "EALIGN" 403, st, false⟩
  else if st.xstat.hash ≠ some suppliedHash then
    ⟨.err ("hash mismatch, actual: " ++
        (match st.xstat.hash with | some h => h | none => "undefined"))
      "EHASHMISMATCH" 403, st, false⟩
  else if diskMtime ≠ st.xstat.mtime then
    ⟨.err "race detected" "ERACE" 403, st, true⟩
  else
    let newHash : String :=
      if st.xstat.size = 0 then dataSha else combineHash sha suppliedHash dataSha
    let xstat2 : Xstat :=
      { uuid := st.xstat.uuid
        typ := "file"
        name := st.xstat.name
        size := st.xstat.size + data.length
        mtime := newMtime
        hash := some newHash }
    ⟨.ok xstat2, ⟨xstat2, st.content ++ data⟩, true⟩

/-! ## Directory resolution (VFS.js 306-353, 380-418)

The Forest's `uuidMap` (vfs/forest.js, a module the claims' code calls into)
maps directory uuids to in-memory Directory nodes; `dir.root()` walks
`parent` links to the owning Root.  Modelled from the spec: a Directory node
carries its uuid, the uuid of its Root (spec section 4.1, `root()` returns the
owning Root, whose uuid equals the drive's uuid), and its optional parent. -/

/-- An in-memory Directory node, reduced to what `DIR`/`dirGET`/`RMDIR`
read: `uuid`, `root().uuid` and `parent`. -/
structure DirNode where
  uuid : String
  rootUuid : String
  parent : Option String
deriving DecidableEq, Repr

/-- The state a resolution reads: the drive roster and the Forest's uuidMap. -/
structure VfsState where
  drives : List DriveRec
  uuidMap : List (String × DirNode)
deriving DecidableEq, Repr

/-- `this.forest.uuidMap.get(uuid)`. -/
def lookupDir (st : VfsState) (uuid : String) : Option DirNode :=
  (st.uuidMap.find? (fun p => p.1 = uuid)).map Prod.snd

/-- `this.drives.find(d => d.uuid === u)`. -/
def findDrive (st : VfsState) (u : String) : Option DriveRec :=
  st.drives.find? (fun d => d.uuid = u)

/-- Result of `DIR` (VFS.js 380-418). -/
inductive DirResult where
  | err (msg : String) (status : Nat)
  | ok (dir : DirNode)
deriving DecidableEq, Repr

/-- `DIR` (VFS.js 380-418): resolve `(driveUUID?, dirUUID)` to a Directory.
A specified drive that is missing, deleted or unwritable gives 404
`drive not found`; a missing dir gives 404 `dir not found`; a dir whose
containing drive is missing, deleted or unwritable gives the same 404
`dir not found`; a dir that exists but under a different drive than the
specified one gives 301 `dir moved elsewhere`. -/
def DIR (st : VfsState) (user : UserRec) (driveUUID : Option String)
    (dirUUID : String) : DirResult :=
  let rest : DirResult :=
    match lookupDir st dirUUID with
    | none => .err "dir not found" 404
    | some dir =>
      match findDrive st dir.rootUuid with
      | none => .err "dir not found" 404
      | some drive =>
        if drive.isDeleted || !userCanWriteDrive user drive then
          .err "dir not found" 404
        else
          match driveUUID with
          | some du => if drive.uuid ≠ du then .err "dir moved elsewhere" 301 else .ok dir
          | none => .ok dir
  match driveUUID with
  | some du =>
    match findDrive st du with
    | none => .err "drive not found" 404
    | some specified =>
      if specified.isDeleted || !userCanWriteDrive user specified then
        .err "drive not found" 404
      else rest
  | none => rest

/-- Result of `dirGET` (VFS.js 306-353), which backs `READDIR`: either an
error `(message, status)`, a successful read, or a JS `TypeError` crash
(`dirGET` dereferences `drive` without a null check, unlike `DIR`). -/
inductive GetResult where
  | err (msg : String) (status : Nat)
  | ok (dir : DirNode)
  | crash
deriving DecidableEq, Repr

/-- `dirGET` (VFS.js 306-353) up to the point where `dir.read` is called:
missing dir gives 404 `dir not found`; a provided `driveUUID` that differs
from the containing drive gives 403 `drive does not contain dir`; an
unwritable drive gives 403 `permission denied` - unlike `DIR`, permission
denial here is distinguishable from absence.  If the containing drive is
not in the roster the source dereferences `undefined` (TypeError). -/
def dirGET (st : VfsState) (user : UserRec) (driveUUID : Option String)
    (dirUUID : String) : GetResult :=
  match lookupDir st dirUUID with
  | none => .err "dir not found" 404
  | some dir =>
    match findDrive st dir.rootUuid with
    | none => .crash
    | some drive =>
      if (match driveUUID with | some du => decide (du ≠ drive.uuid) | none => false) then
        .err "drive does not contain dir" 403
      else if !userCanWriteDrive user drive then
        .err "permission denied" 403
      else .ok dir

/-- `isBackupDrive` (VFS.js 254-259). -/
def isBackupDrive (st : VfsState) (driveUUID : Option String) : Bool :=
  match driveUUID with
  | none => false
  | some du =>
    match findDrive st du with
    | none => false
    | some drv => drv.typ = "backup"

/-- Result of `READDIR` (VFS.js 286-296): backup drives are dispatched to
the Backup module (not modelled - no claim concerns it); everything else
goes through `dirGET`. -/
inductive ReaddirResult where
  | backupDispatch
  | get (r : GetResult)
deriving DecidableEq, Repr

/-- `READDIR` (VFS.js 286-296). -/
def READDIR (st : VfsState) (user : UserRec) (driveUUID : Option String)
    (dirUUID : String) : ReaddirResult :=
  if isBackupDrive st driveUUID then .backupDispatch
  else .get (dirGET st user driveUUID dirUUID)

/-! ## RMDIR (VFS.js 1002-1017) -/

/-- Everything observable about one `RMDIR` run: the error reported through
the callback (if any) and whether `fs.rmdir` was invoked on the target. -/
structure RmdirRun where
  error : Option String
  rmdirCalled : Bool
deriving DecidableEq, Repr

/-- `RMDIR` (VFS.js 1002-1017): resolve the directory with `DIR`; a root
directory (no parent) is refused with `root dir cannot be removed` before
`fs.rmdir` is reached; otherwise `fs.rmdir` is invoked. -/
def RMDIR (st : VfsState) (user : UserRec) (driveUUID : Option String)
    (dirUUID : String) : RmdirRun :=
  match DIR st user driveUUID dirUUID with
  | .err m _ => ⟨some m, false⟩
  | .ok dir =>
    match dir.parent with
    | none => ⟨some "root dir cannot be removed", false⟩
    | some _ => ⟨none, true⟩

/-! ## Tag mutation (VFS.js 660-787)

Tag ids are JS integers (validated nonnegative).  `new Set(arr)` keeps the
first occurrence of each element in insertion order; `.sort()` without a
comparator sorts by the string form of each element (JS default sort). -/

/-- `Array.from(new Set(l))`, with the set of already-seen elements as an
accumulator: drop all but the first occurrence of each element, preserving
order. -/
def jsDedupAux {α : Type} [DecidableEq α] : List α → List α → List α
  | [], _ => []
  | a :: rest, seen =>
    if seen.contains a then jsDedupAux rest seen
    else a :: jsDedupAux rest (a :: seen)

/-- `Array.from(new Set(l))`: drop all but the first occurrence of each
element, preserving order. -/
def jsDedup {α : Type} [DecidableEq α] (l : List α) : List α := jsDedupAux l []

/-- Insert into a sorted list, before the first entry not below `a`. -/
def insertLe {α : Type} (le : α → α → Bool) (a : α) : List α → List α
  | [] => [a]
  | b :: rest => if le a b then a :: b :: rest else b :: insertLe le a rest

/-- Stable insertion sort.  JS `Array.prototype.sort()` is specified as a
stable sort under the comparator, and all stable sorts agree on a total
preorder, so this is an exact model of the engine's sort for the
comparators used here. -/
def insertionSort {α : Type} (le : α → α → Bool) : List α → List α
  | [] => []
  | a :: rest => insertLe le a (insertionSort le rest)

/-- JS default `Array.prototype.sort()` on integers: stable sort by the
decimal string form of each element (so `[2, 10].sort()` is `[10, 2]`). -/
def jsSortTags (l : List Int) : List Int :=
  insertionSort (fun a b => decide (toString a ≤ toString b)) l

/-- `Array.from(new Set(l)).sort()`, the normalization both applied to the
caller's tag list and used when merging tag sets. -/
def normTags (l : List Int) : List Int := jsSortTags (jsDedup l)

/-- A record of the collaborating tag store (`this.tags`). -/
structure TagRec where
  id : Int
  creator : String
  deleted : Bool
deriving DecidableEq, Repr

/-- First validation clause shared verbatim by `ADDTAGS` (663), `REMOVETAGS`
(705) and `SETTAGS` (745): `props.tags` must be an array (`none` models a
non-array value), non-empty, and all nonnegative integers. -/
def tagsInvalid (tagsProp : Option (List Int)) : Bool :=
  match tagsProp with
  | none => true
  | some l => l.isEmpty || !(l.all (fun id => decide (0 ≤ id)))

/-- Second shared validation clause (VFS.js 666-669, 708-711, 748-751):
every supplied id must name a live tag created by the calling user; the
first offender is reported in the thrown error's message. -/
def firstMissingTag (store : List TagRec) (userUuid : String) (l : List Int) :
    Option Int :=
  l.find? (fun id =>
    !(store.any (fun t => t.id = id && t.creator = userUuid && !t.deleted)))

/-- Callback outcome of a tag mutation operation. -/
inductive TagOutcome where
  /-- validation error before directory resolution (status 400). -/
  | invalid (msg : String) (status : Nat)
  /-- error propagated from `DIR`. -/
  | dirErr (msg : String) (status : Nat)
  /-- `ENOTFILE`: the named entry is not a file. -/
  | notFile
  /-- success, reporting the file's (possibly unchanged) tag array. -/
  | ok (tags : Option (List Int))
deriving DecidableEq, Repr

/-- Everything observable about one tag-mutation run: the callback outcome,
whether `DIR` (directory resolution and permission check) was ever reached,
and the file's stored tag array afterwards. -/
structure TagOpRun where
  outcome : TagOutcome
  dirResolved : Bool
  stored : Option (List Int)
deriving DecidableEq, Repr

/-- The tag-relevant part of the target file's xstat, as read by
`readXstat(filePath)` inside the three tag operations. -/
structure FileTagState where
  typ : String
  uuid : String
  tags : Option (List Int)
deriving DecidableEq, Repr

/-- `ADDTAGS` (VFS.js 660-700): validate, resolve the directory via `DIR`,
require a file, then store the sorted union of the old tags and the
(normalized) supplied tags - skipping the write when the union has the same
length as the old array. -/
def ADDTAGSo (store : List TagRec) (st : VfsState) (user : UserRec)
    (driveUUID : Option String) (dirUUID : String)
    (tagsProp : Option (List Int)) (file : FileTagState) : TagOpRun :=
  if tagsInvalid tagsProp then ⟨.invalid "invalid tags" 400, false, file.tags⟩
  else
    match firstMissingTag store user.uuid (tagsProp.getD []) with
    | some id => ⟨.invalid ("tag id " ++ toString id ++ " not found") 400, false, file.tags⟩
    | none =>
    match DIR st user driveUUID dirUUID with
    | .err m s => ⟨.dirErr m s, true, file.tags⟩
    | .ok _ =>
      if file.typ ≠ "file" then ⟨.notFile, true, file.tags⟩
      else
        let tags := normTags (tagsProp.getD [])
        let oldTags := file.tags.getD []
        let newTags := normTags (oldTags ++ tags)
        if newTags.length = oldTags.length then ⟨.ok file.tags, true, file.tags⟩
        else ⟨.ok (some newTags), true, some newTags⟩

/-- `REMOVETAGS` (VFS.js 702-739): validate, resolve, require a file; a file
with no tag array is returned unchanged; otherwise every occurrence of a
supplied tag is removed from the stored array (the source's `reduce` is a
filter). -/
def REMOVETAGSo (store : List TagRec) (st : VfsState) (user : UserRec)
    (driveUUID : Option String) (dirUUID : String)
    (tagsProp : Option (List Int)) (file : FileTagState) : TagOpRun :=
  if tagsInvalid tagsProp then ⟨.invalid "invalid tags" 400, false, file.tags⟩
  else
    match firstMissingTag store user.uuid (tagsProp.getD []) with
    | some id => ⟨.invalid ("tag id " ++ toString id ++ " not found") 400, false, file.tags⟩
    | none =>
    let tags := normTags (tagsProp.getD [])
    match DIR st user driveUUID dirUUID with
    | .err m s => ⟨.dirErr m s, true, file.tags⟩
    | .ok _ =>
      if file.typ ≠ "file" then ⟨.notFile, true, file.tags⟩
      else
        match file.tags with
        | none => ⟨.ok none, true, none⟩
        | some old =>
          let newTags := old.filter (fun id => !tags.contains id)
          ⟨.ok (some newTags), true, some newTags⟩

/-- `SETTAGS` (VFS.js 742-787): validate, resolve, require a file, then
store exactly the normalized supplied tag list. -/
def SETTAGSo (store : List TagRec) (st : VfsState) (user : UserRec)
    (driveUUID : Option String) (dirUUID : String)
    (tagsProp : Option (List Int)) (file : FileTagState) : TagOpRun :=
  if tagsInvalid tagsProp then ⟨.invalid "invalid tags" 400, false, file.tags⟩
  else
    match firstMissingTag store user.uuid (tagsProp.getD []) with
    | some id => ⟨.invalid ("tag id " ++ toString id ++ " not found") 400, false, file.tags⟩
    | none =>
    let tags := normTags (tagsProp.getD [])
    match DIR st user driveUUID dirUUID with
    | .err m s => ⟨.dirErr m s, true, file.tags⟩
    | .ok _ =>
      if file.typ ≠ "file" then ⟨.notFile, true, file.tags⟩
      else ⟨.ok (some tags), true, some tags⟩

/-! ## String helpers used by QUERY -/

/-- `s.toLowerCase()` (ASCII, which covers every filter the spec uses). -/
def lcStr (s : String) : String := ⟨s.data.map Char.toLower⟩

/-- Is `needle` a contiguous subsequence of `hay`? -/
def seqContains {α : Type} [DecidableEq α] : List α → List α → Bool
  | [], needle => needle.isEmpty
  | a :: t, needle => needle.isPrefixOf (a :: t) || seqContains t needle

/-- JS `hay.includes(sub)` (substring containment). -/
def strIncludes (hay sub : String) : Bool := seqContains hay.data sub.data

/-- Split a char list at every occurrence of `sep` (the accumulator holds
the current field reversed). -/
def splitCharsAux (sep : Char) : List Char → List Char → List (List Char)
  | [], acc => [acc.reverse]
  | c :: rest, acc =>
    if c = sep then acc.reverse :: splitCharsAux sep rest []
    else splitCharsAux sep rest (c :: acc)

/-- JS `s.split(sep)` for a one-character separator: always at least one
field; empty fields are kept (`"a.".split('.')` is `["a", ""]`). -/
def jsSplit (sep : Char) (s : String) : List String :=
  (splitCharsAux sep s.data []).map (fun l => ⟨l⟩)

/-- JS `Array.prototype.join(sep)` over strings (also the array-to-string
coercion when `sep` is a comma). -/
def jsJoin (sep : Char) : List String → String
  | [] => ""
  | [s] => s
  | s :: rest => s ++ ⟨[sep]⟩ ++ jsJoin sep rest

/-- Lowercase hex digit. -/
def isHexLower (c : Char) : Bool := c.isDigit || ('a' ≤ c && c ≤ 'f')

/-- Modelled from the spec: `isUUID` comes from `lib/assertion`, which is
not under src/.  A place is a canonical lowercase-hex uuid: 36 characters,
hyphens exactly at offsets 8, 13, 18 and 23. -/
def isUUIDm (s : String) : Bool :=
  s.data.length == 36 &&
  (List.range 36).all (fun i =>
    if i == 8 || i == 13 || i == 18 || i == 23 then s.data.get? i == some '-'
    else (s.data.get? i).any isHexLower)

/-- Decimal value of a digit run. -/
def digitsVal (l : List Char) : Nat :=
  l.foldl (fun acc c => 10 * acc + (c.toNat - '0'.toNat)) 0

/-- JS `ToNumber` on a string, restricted to optionally-signed decimal
integer literals; every other shape is NaN (`none`).  The one use site
coerces the comma-join of a list of uuid strings - which always contains a
hyphen past position 0 - so the restriction is exact on all reachable
inputs. -/
def jsStrToNumber (s : String) : Option Int :=
  match s.data with
  | [] => some 0
  | c :: rest =>
    if c = '-' then
      if !rest.isEmpty && rest.all Char.isDigit then some (-(digitsVal rest : Int)) else none
    else if c = '+' then
      if !rest.isEmpty && rest.all Char.isDigit then some ((digitsVal rest : Int)) else none
    else if (c :: rest).all Char.isDigit then some ((digitsVal (c :: rest) : Int)) else none

/-- Maximal leading digit run, `none` when empty. -/
def parseDigits (l : List Char) : Option Nat :=
  let run := l.takeWhile Char.isDigit
  if run.isEmpty then none else some (digitsVal run)

/-- JS `parseInt(s)`: optional sign then the maximal leading decimal digit
run; NaN (`none`) when the run is empty.  (Leading whitespace and `0x`
prefixes are not modelled; no reachable input uses them.) -/
def jsParseInt (s : String) : Option Int :=
  match s.data with
  | '-' :: rest => (parseDigits rest).map (fun n => -(n : Int))
  | '+' :: rest => (parseDigits rest).map (fun n => (n : Int))
  | l => (parseDigits l).map (fun n => (n : Int))

/-! ## The chronological query engine (VFS.js 1040-1316)

`this.forest.timedFiles` is the Forest's time-sorted sequence of indexed
File nodes (vfs/forest.js, not under src/); per the spec it is sorted by
the `(mtime, uuid)` key and supports binary search (`indexOfByKey`).  A
File node's denormalized view, as `iterateList.match` reads it: -/

/-- One indexed file of the time-sorted sequence.  `ancestors` is
`file.nodepath().map(n => n.uuid).slice(0, -1)` - the uuid chain from the
Root down to the parent directory (`nodepath` lives in vfs/node.js, not
under src/; modelled from the spec's root-to-node chain). -/
structure TFile where
  uuid : String
  name : String
  size : Nat
  mtime : Int
  hash : Option String
  tags : Option (List Int)
  metadataType : Option String
  ancestors : List String
deriving DecidableEq, Repr

/-- `places.findIndex(place => uuids.includes(place))` (VFS.js 1237). -/
def findPlaceIndex (places : List String) (ancestors : List String) : Option Nat :=
  places.findIdx? (fun place => ancestors.contains place)

/-- The filter of `iterateList.match` (VFS.js 1222-1252): case-insensitive
substring name match, metadata-type membership, tag-superset check, and the
place check (some ancestor of the file is a requested place).  A query tag
is `Option Int` because `parseInt` can produce NaN; `Array.includes` uses
SameValueZero, under which NaN matches only NaN, and the stored tag list
holds genuine integers, so a `none` query tag matches nothing. -/
def matchFile (nameQ : Option String) (typesQ : Option (List String))
    (tagsQ : Option (List (Option Int))) (places : List String) (f : TFile) : Bool :=
  (match nameQ with
   | some n => strIncludes (lcStr f.name) (lcStr n)
   | none => true) &&
  (match typesQ with
   | some ts =>
     match f.metadataType with
     | some mt => ts.contains mt
     | none => false
   | none => true) &&
  (match tagsQ with
   | some qs =>
     match f.tags with
     | some fts => qs.all (fun q => match q with
       | some v => fts.contains v
       | none => false)
     | none => false
   | none => true) &&
  (findPlaceIndex places f.ancestors).isSome

/-- `if (count && findCounter >= count) break` (VFS.js 1290, 1304):
the break fires only when a count was supplied. -/
def countReached (count : Option Nat) (k : Nat) : Bool :=
  match count with
  | some c => decide (k ≥ c)
  | none => false

/-- The scan loop body over an explicit scan-order list: visit each file,
collect it if it matches, and break once `findCounter` reaches `count`.
`k` is the running `findCounter`. -/
def scanCollect (p : TFile → Bool) (count : Option Nat) :
    List TFile → Nat → List TFile
  | [], _ => []
  | f :: rest, k =>
    let k' := if p f then k + 1 else k
    let out := if p f then [f] else []
    if countReached count k' then out else out ++ scanCollect p count rest k'

/-- The downward index loop `for (let i = startIndex; i >= 0; i--)`
(VFS.js 1288-1291), structurally recursing on the index. -/
def scanDownFrom (files : List TFile) (p : TFile → Bool) (count : Option Nat) :
    Nat → Nat → List TFile
  | 0, _ =>
    match files.get? 0 with
    | none => []
    | some f => if p f then [f] else []
  | i + 1, k =>
    match files.get? (i + 1) with
    | none => []
    | some f =>
      let k' := if p f then k + 1 else k
      let out := if p f then [f] else []
      if countReached count k' then out else out ++ scanDownFrom files p count i k'

/-- Newest-order entry with a possibly negative adjusted start index (a JS
`startIndex` of `-1` makes the downward loop run zero times). -/
def scanNewestFrom (files : List TFile) (p : TFile → Bool) (count : Option Nat)
    (startIndex : Int) : List TFile :=
  match startIndex with
  | .ofNat i => scanDownFrom files p count i 0
  | .negSucc _ => []

/-- Strict `(mtime, uuid)` key order on indexed files (the Forest keeps
`timedFiles` sorted ascending by this key). -/
def keyLt (f g : TFile) : Prop :=
  f.mtime < g.mtime ∨ (f.mtime = g.mtime ∧ f.uuid < g.uuid)

instance : DecidableRel keyLt := fun f g => by
  unfold keyLt
  infer_instance

/-- Modelled from the spec: `files.indexOfByKey(time, uuid)` is the
time-sorted sequence's binary-search lower bound (vfs/forest.js is not
under src/) - the first index whose `(getTime(), uuid)` key is not below
the query key, or `files.length` when every key is below it. -/
def indexOfByKey (files : List TFile) (t : Int) (u : String) : Nat :=
  (files.takeWhile (fun f =>
    decide (f.mtime < t) || (decide (f.mtime = t) && decide (f.uuid < u)))).length

/-- How `iterateList` delivers its result (VFS.js 1209-1220, 1308-1316):
`countOnly` results are delivered in memory through the callback; everything
else is streamed to a fresh temp file as a JSON array, and the callback
receives that temp file's path. -/
inductive IterOut where
  /-- `callback(null, tmpF)` - the temp file holds `records` as JSON. -/
  | tmpFile (records : List TFile)
  /-- `callback(null, results)` with a plain match count. -/
  | memCount (n : Nat)
  /-- `callback(null, results)` with per-place counts (`groupBy=place`). -/
  | memGroup (groups : List (String × Nat))
deriving DecidableEq, Repr

/-- Per-place grouping of matched files (VFS.js 1243-1250): first
appearance order, one counter per matching place key. -/
def groupByPlace (places : List String) (matched : List TFile) : List (String × Nat) :=
  matched.foldl (fun acc f =>
    match findPlaceIndex places f.ancestors with
    | none => acc
    | some i =>
      let key := places.getD i ""
      if acc.any (fun pr => pr.1 = key) then
        acc.map (fun pr => if pr.1 = key then (pr.1, pr.2 + 1) else pr)
      else acc ++ [(key, 1)]) []

/-- `iterateList` (VFS.js 1196-1316).  The source interleaves record
emission and counting with the traversal; the traversal (scan order, match
filter and count break) is identical in all modes, so the matched sequence
is computed once and then delivered per mode. -/
def iterateList (files : List TFile) (order : String)
    (start : Option (Int × String × Bool)) (count : Option Nat)
    (places : List String) (typesQ : Option (List String))
    (tagsQ : Option (List (Option Int))) (nameQ : Option String)
    (countOnly : Bool) (groupBy : Option String) : IterOut :=
  let p := matchFile nameQ typesQ tagsQ places
  let matched :=
    if order = "newest" then
      match start with
      | none =>
        if files.length = 0 then [] else scanDownFrom files p count (files.length - 1) 0
      | some (t, u, ex) =>
        let i0 := indexOfByKey files t u
        let i1 : Int :=
          if i0 = files.length then (i0 : Int) - 1
          else if ex && (match files.get? i0 with
                         | some f => f.mtime = t && f.uuid = u
                         | none => false) then (i0 : Int) - 1
          else (i0 : Int)
        scanNewestFrom files p count i1
    else
      match start with
      | none => scanCollect p count files 0
      | some (t, u, ex) =>
        let i0 := indexOfByKey files t u
        let i1 :=
          if ex && i0 < files.length && (match files.get? i0 with
                                         | some f => f.mtime = t && f.uuid = u
                                         | none => false) then i0 + 1
          else i0
        scanCollect p count (files.drop i1) 0
  if countOnly then
    if groupBy = some "place" then .memGroup (groupByPlace places matched)
    else .memCount matched.length
  else .tmpFile matched

/-! ## The QUERY front end (VFS.js 1040-1191) -/

def UUID_MIN : String := "00000000-0000-4000-0000-000000000000"
def UUID_MAX : String := "ffffffff-ffff-4fff-ffff-ffffffffffff"

/-- Media class shortcuts (VFS.js 1149-1157). -/
def imageTypes : List String := ["JPEG", "PNG", "GIF", "TIFF", "BMP", "HEIC"]
def videoTypes : List String :=
  ["RM", "RMVB", "WMV", "AVI", "MPEG", "MP4", "3GP", "MOV", "FLV", "MKV"]
def audioTypes : List String := ["RA", "WMA", "MP3", "MKA", "WAV", "APE", "FLAC"]
def documentTypes : List String :=
  ["DOC", "DOCX", "XLS", "XLSX", "PPT", "PPTX", "PDF", "KEY", "NUMBERS", "PAGES"]

/-- Number of iterations of the permission-check loop
`for (let i = 0; i < places; i++)` (VFS.js 1058).  The loop guard compares
the integer index with the `places` *array*: JS coerces the array to its
comma-join and then to a number, so the guard is `i < Number(join)` - NaN
(no iterations) whenever the join is not a numeric literal, which is the
case for every uuid list. -/
def permCheckIterations (places : List String) : Nat :=
  match jsStrToNumber (jsJoin ',' places) with
  | none => 0
  | some n => n.toNat

/-- Body of the permission-check loop (VFS.js 1059-1065), over the indexes
the guard admits: an unindexed place or a place whose containing drive the
caller cannot write yields the 400 `place ... not found` error.  (With an
index beyond the array, or a place whose drive is missing from the roster,
the source would throw a TypeError; both are unreachable.) -/
def placeCheckError (st : VfsState) (user : UserRec) (places : List String) :
    Option (String × Nat) :=
  (List.range (permCheckIterations places)).findSome? (fun i =>
    match places.get? i with
    | none => some ("place undefined not found", 400)
    | some place =>
      match lookupDir st place with
      | none => some ("place " ++ place ++ " not found", 400)
      | some dir =>
        match findDrive st dir.rootUuid with
        | none => some ("TypeError", 500)
        | some drive =>
          if !userCanWriteDrive user drive then
            some ("place " ++ place ++ " not found", 400)
          else none)

/-- `props.starti` / `props.starte` parsing (VFS.js 1079-1107): at most one
dot, an integer time, and either an explicit uuid or the order-dependent
extreme uuid. -/
def parseStart (s : String) (order : String) : Option (Int × String) :=
  let split := jsSplit '.' s
  if split.length > 2 then none
  else
    match jsParseInt (split.headD "") with
    | none => none
    | some t =>
      if split.length > 1 then
        let u := split.getD 1 ""
        if isUUIDm u then some (t, u) else none
      else some (t, if order = "newest" then UUID_MAX else UUID_MIN)

/-- JS truthiness of an optional string property: `if (props.x)` treats an
absent value and an empty string alike, so both become `none`. -/
def truthy (o : Option String) : Option String :=
  match o with
  | some s => if s.isEmpty then none else some s
  | none => none

/-- The QUERY property bag (all HTTP query values arrive as strings). -/
structure QueryProps where
  places : Option String
  order : Option String
  starti : Option String
  starte : Option String
  last : Option String
  count : Option String
  countOnly : Option String
  groupBy : Option String
  klass : Option String
  types : Option String
  tags : Option String
  name : Option String
  fileOnly : Option String
deriving DecidableEq, Repr

/-- An all-`none` property bag, to be overridden per call site. -/
def emptyProps : QueryProps :=
  ⟨none, none, none, none, none, none, none, none, none, none, none, none, none⟩

/-- Reply of `QUERY`. -/
inductive QReply where
  | err (msg : String) (status : Nat)
  | done (out : IterOut)
  /-- `order=find`: dispatch to the hierarchical walk (`iterateTreeSync`),
  which no claim concerns and which is not modelled. -/
  | treeDispatch (props : QueryProps)
deriving DecidableEq, Repr

/-- `QUERY` (VFS.js 1040-1191), chronological path: places validation and
the (dead) permission-check loop, order defaulting, cursor / count /
countOnly / groupBy / class / types / tags / name validation, then
`iterateList` over the Forest's time-sorted `files`. -/
def QUERY (st : VfsState) (user : UserRec) (files : List TFile)
    (props : QueryProps) : QReply :=
  match truthy props.places with
  | none => .err "places not provided" 400
  | some placesStr =>
    let places := jsSplit '.' placesStr
    if !places.all isUUIDm then .err "invalid places" 400
    else if places.length ≠ (jsDedup places).length then
      .err "places has duplicate elements" 400
    else
      match placeCheckError st user places with
      | some (m, s) => .err m s
      | none =>
        let orderOk : Option String :=
          match truthy props.order with
          | some o =>
            if o = "newest" || o = "oldest" || o = "find" then some o else none
          | none => some "newest"
        match orderOk with
        | none => .err "invalid order" 400
        | some order =>
          if order = "find" then .treeDispatch props
          else
            let startE : Except (String × Nat) (Option (Int × String × Bool)) :=
              match truthy props.starti with
              | some s =>
                match parseStart s order with
                | none => .error ("invalid starti", 400)
                | some (t, u) => .ok (some (t, u, false))
              | none =>
                match truthy props.starte with
                | some s =>
                  match parseStart s order with
                  | none => .error ("invalid starte", 400)
                  | some (t, u) => .ok (some (t, u, true))
                | none => .ok none
            match startE with
            | .error (m, s) => .err m s
            | .ok start =>
              let countE : Except (String × Nat) (Option Nat) :=
                match truthy props.count with
                | none => .ok none
                | some cs =>
                  match jsParseInt cs with
                  | none => .error ("invalid count", 400)
                  | some c =>
                    if c ≤ 0 then .error ("invalid count", 400) else .ok (some c.toNat)
              match countE with
              | .error (m, s) => .err m s
              | .ok count =>
                let countOnly : Bool := props.countOnly == some "true"
                let groupByE : Except (String × Nat) (Option String) :=
                  match truthy props.groupBy with
                  | none => .ok none
                  | some g =>
                    if g = "place" then .ok (some "place")
                    else .error ("invalid groupBy", 400)
                match groupByE with
                | .error (m, s) => .err m s
                | .ok groupBy =>
                  let typesE : Except (String × Nat) (Option (List String)) :=
                    match truthy props.klass with
                    | some c =>
                      if c = "image" then .ok (some imageTypes)
                      else if c = "video" then .ok (some videoTypes)
                      else if c = "audio" then .ok (some audioTypes)
                      else if c = "document" then .ok (some documentTypes)
                      else .error ("invalid class", 400)
                    | none =>
                      match truthy props.types with
                      | some ts =>
                        let l := jsSplit '.' ts
                        if l.all (fun t => !t.isEmpty) then .ok (some l)
                        else .error ("invalid types", 400)
                      | none => .ok none
                  match typesE with
                  | .error (m, s) => .err m s
                  | .ok typesQ =>
                    let tagsE : Except (String × Nat) (Option (List (Option Int))) :=
                      match truthy props.tags with
                      | none => .ok none
                      | some ts =>
                        let l := (jsSplit '.' ts).map jsParseInt
                        if l.length ≠ (jsDedup l).length then
                          .error ("invalid tags", 400)
                        else .ok (some l)
                    match tagsE with
                    | .error (m, s) => .err m s
                    | .ok tagsQ =>
                      .done (iterateList files order start count places
                        typesQ tagsQ (truthy props.name) countOnly groupBy)

/-- Does `iterateList` deliver through a temp file (as opposed to in
memory)? -/
def IterOut.isTmpFile : IterOut → Bool
  | .tmpFile _ => true
  | .memCount _ => false
  | .memGroup _ => false

/-! ## Helper lemmas -/

/-- The scan loop with a positive count pending collects the next
`c - k` matches: it is filter-then-take over the scan-order list. -/
theorem scanCollect_count (p : TFile → Bool) (c : Nat) :
    ∀ (l : List TFile) (k : Nat), k < c →
      scanCollect p (some c) l k = (l.filter p).take (c - k) := by
  intro l
  induction l with
  | nil => intro k _; simp [scanCollect]
  | cons f rest ih =>
    intro k hk
    by_cases hp : p f
    · by_cases hbreak : c ≤ k + 1
      · have hcr : countReached (some c) (k + 1) = true := by
          simp [countReached]; omega
        have hck : c - k = 1 := by omega
        simp [scanCollect, hp, hcr, hck, List.filter_cons]
      · have hcr : countReached (some c) (k + 1) = false := by
          simp [countReached]; omega
        have hck : c - k = (c - (k + 1)) + 1 := by omega
        simp only [scanCollect, hp, if_true, hcr, Bool.false_eq_true, if_false,
          List.singleton_append, List.filter_cons, ih (k + 1) (by omega), hck,
          List.take_succ_cons]
    · have hcr : countReached (some c) k = false := by
        simp [countReached]; omega
      simp [scanCollect, hp, hcr, List.filter_cons, ih k hk]

/-- With no count supplied the scan loop never breaks: it is a plain
filter over the scan-order list. -/
theorem scanCollect_none (p : TFile → Bool) :
    ∀ (l : List TFile) (k : Nat), scanCollect p none l k = l.filter p := by
  intro l
  induction l with
  | nil => intro k; simp [scanCollect]
  | cons f rest ih =>
    intro k
    by_cases hp : p f <;>
      simp [scanCollect, hp, countReached, List.filter_cons, ih]

/-- The downward index loop from `i` visits exactly the first `i + 1`
entries in reverse order. -/
theorem scanDownFrom_eq (files : List TFile) (p : TFile → Bool) (count : Option Nat) :
    ∀ (i : Nat), i < files.length → ∀ (k : Nat),
      scanDownFrom files p count i k =
        scanCollect p count ((files.take (i + 1)).reverse) k := by
  intro i
  induction i with
  | zero =>
    intro hi k
    obtain ⟨f, hf⟩ : ∃ f, files.get? 0 = some f := by
      cases files with
      | nil => simp at hi
      | cons a _ => exact ⟨a, rfl⟩
    have ht : files.take 1 = [f] := by
      cases files with
      | nil => simp at hf
      | cons a _ => simp_all
    rw [scanDownFrom, hf, ht]
    by_cases hp : p f <;> simp only [scanCollect, hp, if_true, Bool.false_eq_true, if_false] <;>
      split <;> simp
  | succ i ih =>
    intro hi k
    obtain ⟨f, hf⟩ : ∃ f, files.get? (i + 1) = some f := by
      rw [List.get?_eq_getElem?]
      exact ⟨files[i + 1], List.getElem?_eq_getElem hi⟩
    have ht : (files.take (i + 2)).reverse = f :: (files.take (i + 1)).reverse := by
      rw [List.take_succ]
      have : files[i + 1]? = some f := by rw [← List.get?_eq_getElem?]; exact hf
      simp [this]
    rw [scanDownFrom, hf, ht, scanCollect]
    by_cases hp : p f <;> simp only [hp, if_true, Bool.false_eq_true, if_false] <;>
      split <;> simp [ih (by omega) _]

/-- Membership through the dedup accumulator. -/
theorem mem_jsDedupAux {α : Type} [DecidableEq α] (a : α) :
    ∀ (l seen : List α), a ∈ jsDedupAux l seen ↔ a ∈ l ∧ a ∉ seen := by
  intro l
  induction l with
  | nil => intro seen; simp [jsDedupAux]
  | cons x rest ih =>
    intro seen
    by_cases hx : seen.contains x
    · have hxm : x ∈ seen := List.elem_iff.mp hx
      simp only [jsDedupAux, hx, if_true, ih, List.mem_cons]
      constructor
      · rintro ⟨h, hs⟩; exact ⟨Or.inr h, hs⟩
      · rintro ⟨h | h, hs⟩
        · subst h; exact absurd hxm hs
        · exact ⟨h, hs⟩
    · have hxm : x ∉ seen := fun hmem => hx (List.elem_iff.mpr hmem)
      simp only [jsDedupAux, hx, Bool.false_eq_true, if_false, List.mem_cons, ih]
      constructor
      · rintro (h | ⟨h, hs⟩)
        · exact ⟨Or.inl h, fun hmem => hxm (h ▸ hmem)⟩
        · exact ⟨Or.inr h, fun hmem => hs (Or.inr hmem)⟩
      · rintro ⟨h | h, hs⟩
        · exact Or.inl h
        · by_cases hax : a = x
          · exact Or.inl hax
          · refine Or.inr ⟨h, fun hmem => ?_⟩
            rcases hmem with h1 | h1
            · exact hax h1
            · exact hs h1

/-- `Array.from(new Set(l))` preserves membership. -/
theorem mem_jsDedup {α : Type} [DecidableEq α] (a : α) (l : List α) :
    a ∈ jsDedup l ↔ a ∈ l := by
  rw [jsDedup, mem_jsDedupAux]
  simp

/-- Insertion preserves membership. -/
theorem mem_insertLe {α : Type} (le : α → α → Bool) (a x : α) :
    ∀ l : List α, a ∈ insertLe le x l ↔ a = x ∨ a ∈ l := by
  intro l
  induction l with
  | nil => simp [insertLe]
  | cons b rest ih =>
    by_cases hle : le x b
    · simp [insertLe, hle]
    · simp only [insertLe, hle, Bool.false_eq_true, if_false, List.mem_cons, ih]
      tauto

/-- Sorting preserves membership. -/
theorem mem_insertionSort {α : Type} (le : α → α → Bool) (a : α) :
    ∀ l : List α, a ∈ insertionSort le l ↔ a ∈ l := by
  intro l
  induction l with
  | nil => simp [insertionSort]
  | cons b rest ih => simp [insertionSort, mem_insertLe, ih]

/-- `Array.from(new Set(l)).sort()` preserves membership. -/
theorem mem_normTags (a : Int) (l : List Int) : a ∈ normTags l ↔ a ∈ l := by
  rw [normTags, jsSortTags, mem_insertionSort, mem_jsDedup]

/-- A normalized non-empty tag list stays non-empty. -/
theorem normTags_ne_nil {l : List Int} (h : l ≠ []) : normTags l ≠ [] := by
  cases l with
  | nil => exact absurd rfl h
  | cons t rest =>
    intro hcontra
    have : t ∈ normTags (t :: rest) := (mem_normTags t _).mpr (by simp)
    rw [hcontra] at this
    exact absurd this (List.not_mem_nil t)

/-! ## Concrete fixtures

A small concrete roster used by the closed theorems: drive `wDrvA` is a
private drive owned by `owner`, so user `wUser` (uuid `u1`) cannot write
it; drive `wDrvB` is a public drive with no writelist, writable by
everyone.  `wR1`/`wRW` are the respective drive roots, `wD3` a
subdirectory of `wRW`. -/

def wR1 : String := "11111111-1111-4111-8111-111111111111"
def wRW : String := "22222222-2222-4222-8222-222222222222"
def wD3 : String := "33333333-3333-4333-8333-333333333333"
def wMissing : String := "99999999-9999-4999-8999-999999999999"

def wUser : UserRec := ⟨"u1"⟩
def wDrvA : DriveRec := ⟨wR1, some true, "private", "owner", none, false⟩
def wDrvB : DriveRec := ⟨wRW, some false, "public", "owner", none, false⟩
def wDirR1 : DirNode := ⟨wR1, wR1, none⟩
def wDirRW : DirNode := ⟨wRW, wRW, none⟩
def wDirD3 : DirNode := ⟨wD3, wRW, some wRW⟩

def wSt : VfsState :=
  ⟨[wDrvA, wDrvB], [(wR1, wDirR1), (wRW, wDirRW), (wD3, wDirD3)]⟩

/-- A file indexed under the unwritable drive `wDrvA`'s root. -/
def wFileA : TFile := ⟨"fa", "photo.jpg", 10, 100, some "h1", none, some "JPEG", [wR1]⟩

/-- A stand-in for the external SHA-256 digest in closed computations. -/
def wSha : List Nat → String := fun l => toString l.length

/-! ## Claims -/

/-- C10: every tag mutation operation (SETTAGS, ADDTAGS, REMOVETAGS)
rejects an empty tags array: for every call whose tags property is `[]`,
the callback receives the 400 `invalid tags` error before any directory
resolution or permission check, and the file's stored tags are
unchanged - so an empty tag set can never be assigned directly via
SETTAGS. -/
theorem C10_empty_tags_rejected (store : List TagRec) (st : VfsState)
    (user : UserRec) (driveUUID : Option String) (dirUUID : String)
    (file : FileTagState) :
    ADDTAGSo store st user driveUUID dirUUID (some []) file =
      ⟨.invalid "invalid tags" 400, false, file.tags⟩
  ∧ REMOVETAGSo store st user driveUUID dirUUID (some []) file =
      ⟨.invalid "invalid tags" 400, false, file.tags⟩
  ∧ SETTAGSo store st user driveUUID dirUUID (some []) file =
      ⟨.invalid "invalid tags" 400, false, file.tags⟩ :=
  ⟨rfl, rfl, rfl⟩

/-- C8: for every RMDIR call whose resolved target directory is a Root
(no parent), the operation reports an error, `fs.rmdir` is never invoked,
and hence the drive root remains present. -/
theorem C8_rmdir_refuses_root (st : VfsState) (user : UserRec)
    (driveUUID : Option String) (dirUUID : String) (dir : DirNode)
    (hdir : DIR st user driveUUID dirUUID = .ok dir)
    (hroot : dir.parent = none) :
    RMDIR st user driveUUID dirUUID = ⟨some "root dir cannot be removed", false⟩ := by
  unfold RMDIR
  rw [hdir]
  simp only [hroot]

/-- Witness for C8 at the public drive root `wRW`. -/
theorem C8_rmdir_refuses_root_witness :
    RMDIR wSt wUser none wRW = ⟨some "root dir cannot be removed", false⟩ :=
  C8_rmdir_refuses_root wSt wUser none wRW wDirRW (by decide) rfl

/-- C4: APPEND is permitted only on files whose size is a multiple of the
fixed 1 GiB alignment unit: a target file of any other size fails with
`EALIGN` status 403 and no mutation is performed (`btrfsConcat` is never
reached and the target file is untouched). -/
theorem C4_append_alignment (sha : List Nat → String) (st : FileState)
    (suppliedHash : String) (data : List Nat) (dataSha : String)
    (diskMtime newMtime : Int)
    (hfile : st.xstat.typ = "file")
    (hmis : st.xstat.size % alignUnit ≠ 0) :
    APPEND sha st suppliedHash data dataSha diskMtime newMtime =
      ⟨.err "not a multiple of 1G" "EALIGN" 403, st, false⟩ := by
  unfold APPEND
  rw [if_neg (by simp [hfile]), if_pos hmis]

/-- Witness for C4: a 5-byte file. -/
theorem C4_append_alignment_witness :
    APPEND wSha ⟨⟨"ux", "file", "f.bin", 5, 7, some "aa"⟩, [1, 2, 3, 4, 5]⟩
        "aa" [9] "cc" 7 8 =
      ⟨.err "not a multiple of 1G" "EALIGN" 403,
       ⟨⟨"ux", "file", "f.bin", 5, 7, some "aa"⟩, [1, 2, 3, 4, 5]⟩, false⟩ :=
  C4_append_alignment wSha _ "aa" [9] "cc" 7 8 rfl (by decide)

/-- C3 counterexample: an APPEND whose supplied hash differs from the
target's recorded hash does *not* always fail with `EHASHMISMATCH`: a
misaligned target with a stale hash fails with `EALIGN` instead, because
the alignment check precedes the hash check. -/
theorem C3_counterexample :
    (Xstat.hash ⟨"ux", "file", "f.bin", 5, 7, some "aa"⟩ ≠ some "bb")
  ∧ (APPEND wSha ⟨⟨"ux", "file", "f.bin", 5, 7, some "aa"⟩, [1, 2, 3, 4, 5]⟩
        "bb" [9] "cc" 7 8).outcome = .err "not a multiple of 1G" "EALIGN" 403
  ∧ "EALIGN" ≠ "EHASHMISMATCH" := by
  refine ⟨by decide, rfl, by decide⟩

/-- C3 (amended): for every APPEND on a target that is a file of aligned
size, a supplied hash differing from the recorded hash fails with
`EHASHMISMATCH` status 403, the target file (content, uuid identity and
recorded hash) is unchanged, and the failure occurs before any
concatenation is attempted. -/
theorem C3_append_hash_mismatch (sha : List Nat → String) (st : FileState)
    (suppliedHash : String) (data : List Nat) (dataSha : String)
    (diskMtime newMtime : Int)
    (hfile : st.xstat.typ = "file")
    (halign : st.xstat.size % alignUnit = 0)
    (hmis : st.xstat.hash ≠ some suppliedHash) :
    APPEND sha st suppliedHash data dataSha diskMtime newMtime =
      ⟨.err ("hash mismatch, actual: " ++
          (match st.xstat.hash with | some h => h | none => "undefined"))
        "EHASHMISMATCH" 403, st, false⟩ := by
  unfold APPEND
  rw [if_neg (by simp [hfile]), if_neg (by simp [halign]), if_pos hmis]

/-- Witness for C3 (amended): an aligned (1 GiB) target with recorded hash
`aa` and supplied hash `bb`. -/
theorem C3_append_hash_mismatch_witness :
    APPEND wSha ⟨⟨"ux", "file", "f.bin", 1073741824, 7, some "aa"⟩, []⟩
        "bb" [9] "cc" 7 8 =
      ⟨.err ("hash mismatch, actual: " ++
          (match Xstat.hash ⟨"ux", "file", "f.bin", 1073741824, 7, some "aa"⟩ with
           | some h => h | none => "undefined"))
        "EHASHMISMATCH" 403,
       ⟨⟨"ux", "file", "f.bin", 1073741824, 7, some "aa"⟩, []⟩, false⟩ :=
  C3_append_hash_mismatch wSha _ "bb" [9] "cc" 7 8 rfl (by decide) (by decide)

/-- C2: a successful APPEND records, for a non-empty original, the SHA-256
of the concatenation of the hex-decoded old content hash and the
hex-decoded hash of the appended data (a hash of the two hashes); for an
originally empty file it records the appended data's hash. -/
theorem C2_append_hash_combination (sha : List Nat → String) (st : FileState)
    (suppliedHash : String) (data : List Nat) (dataSha : String)
    (diskMtime newMtime : Int)
    (hfile : st.xstat.typ = "file")
    (halign : st.xstat.size % alignUnit = 0)
    (hmatch : st.xstat.hash = some suppliedHash)
    (hrace : diskMtime = st.xstat.mtime) :
    ∃ x2, (APPEND sha st suppliedHash data dataSha diskMtime newMtime).outcome = .ok x2
      ∧ (st.xstat.size ≠ 0 →
          x2.hash = some (sha (hexDecode suppliedHash ++ hexDecode dataSha)))
      ∧ (st.xstat.size = 0 → x2.hash = some dataSha) := by
  unfold APPEND
  rw [if_neg (by simp [hfile]), if_neg (by simp [halign]),
    if_neg (by simp [hmatch]), if_neg (by simp [hrace])]
  refine ⟨_, rfl, fun hsz => ?_, fun hsz => ?_⟩
  · simp [hsz, combineHash]
  · simp [hsz]

/-- Witness for C2: appending to a 1 GiB file whose recorded hash is `0a`,
with data hash `ff`; the new recorded hash is the digest of the byte
buffer `0a ff` (under the stand-in digest, the string `2`). -/
theorem C2_append_hash_combination_witness :
    ∃ x2, (APPEND wSha ⟨⟨"ux", "file", "f.bin", 1073741824, 7, some "0a"⟩, []⟩
        "0a" [9, 9] "ff" 7 8).outcome = .ok x2
      ∧ (Xstat.size ⟨"ux", "file", "f.bin", 1073741824, 7, some "0a"⟩ ≠ 0 →
          x2.hash = some (wSha (hexDecode "0a" ++ hexDecode "ff")))
      ∧ (Xstat.size ⟨"ux", "file", "f.bin", 1073741824, 7, some "0a"⟩ = 0 →
          x2.hash = some "ff") :=
  C2_append_hash_combination wSha _ "0a" [9, 9] "ff" 7 8 rfl (by decide) rfl rfl

/-- C7 counterexample: permission denial is *not* indistinguishable from
absence for every directory-resolving operation: `READDIR` (via `dirGET`)
answers 403 `permission denied` for an existing directory on an unwritable
drive, but 404 `dir not found` for an absent directory - so a caller can
learn that the inaccessible directory exists. -/
theorem C7_counterexample :
    userCanWriteDrive wUser wDrvA = false
  ∧ lookupDir wSt wR1 = some wDirR1
  ∧ lookupDir wSt wMissing = none
  ∧ READDIR wSt wUser none wR1 = .get (.err "permission denied" 403)
  ∧ READDIR wSt wUser none wMissing = .get (.err "dir not found" 404) := by
  refine ⟨by decide, by decide, by decide, by decide, by decide⟩

/-- C7 (amended): for every operation that resolves a directory through
`DIR` (MKDIR, RENAME, REMOVE, NEWFILE, APPEND, the tag mutations, RMDIR,
and CPFILE/MVFILE/MVDIRS/CLONE, which always pass a `driveUUID`),
permission denial is indistinguishable from absence, for any `driveUUID`
argument:

* a *specified* drive that is missing from the roster, deleted, or not
  writable by the calling user yields 404 `drive not found` - exactly the
  outcome of specifying a drive that does not exist at all;
* when the specified drive (if any) is present, live and writable, a
  directory whose *containing* drive is missing, deleted, or not writable
  yields 404 `dir not found` - exactly the outcome of a directory that
  does not exist at all.

`READDIR`, however, resolves through `dirGET`, which reports 403
`permission denied` for an unwritable drive and is therefore
distinguishable from absence (see the counterexample). -/
theorem C7_dir_denial_indistinguishable (st : VfsState) (user : UserRec)
    (driveUUID : Option String) (dirUUID : String) :
    (∀ du, driveUUID = some du →
      (findDrive st du = none
        ∨ ∃ d, findDrive st du = some d ∧
            (d.isDeleted = true ∨ userCanWriteDrive user d = false)) →
      DIR st user driveUUID dirUUID = .err "drive not found" 404)
  ∧ ((driveUUID = none
        ∨ ∃ du d, driveUUID = some du ∧ findDrive st du = some d ∧
            d.isDeleted = false ∧ userCanWriteDrive user d = true) →
      (lookupDir st dirUUID = none →
        DIR st user driveUUID dirUUID = .err "dir not found" 404)
      ∧ (∀ dir, lookupDir st dirUUID = some dir →
          (findDrive st dir.rootUuid = none
            ∨ ∃ d, findDrive st dir.rootUuid = some d ∧
                (d.isDeleted = true ∨ userCanWriteDrive user d = false)) →
          DIR st user driveUUID dirUUID = .err "dir not found" 404)) := by
  constructor
  · rintro du rfl hbad
    rcases hbad with hnone | ⟨d, hd, hbad⟩
    · simp only [DIR, hnone]
    · rcases hbad with hdel | hperm
      · simp only [DIR, hd, hdel, Bool.true_or, if_true]
      · simp only [DIR, hd, hperm, Bool.not_false, Bool.or_true, if_true]
  · intro hspec
    have hrest : ∀ r : DirResult,
        ((match lookupDir st dirUUID with
          | none => DirResult.err "dir not found" 404
          | some dir =>
            match findDrive st dir.rootUuid with
            | none => DirResult.err "dir not found" 404
            | some drive =>
              if drive.isDeleted || !userCanWriteDrive user drive then
                DirResult.err "dir not found" 404
              else
                match driveUUID with
                | some du =>
                  if drive.uuid ≠ du then DirResult.err "dir moved elsewhere" 301
                  else DirResult.ok dir
                | none => DirResult.ok dir) = r) →
        DIR st user driveUUID dirUUID = r := by
      intro r hr
      rcases hspec with rfl | ⟨du, d, rfl, hd, hdel, hperm⟩
      · simpa only [DIR] using hr
      · simp only [DIR, hd, hdel, hperm, Bool.not_true, Bool.or_false,
          Bool.false_eq_true, if_false]
        exact hr
    constructor
    · intro habsent
      exact hrest _ (by rw [habsent])
    · intro dir hdir hbad
      refine hrest _ ?_
      rcases hbad with hnone | ⟨dc, hdc, hbadc⟩
      · simp only [hdir, hnone]
      · rcases hbadc with h1 | h1
        · simp only [hdir, hdc, h1, Bool.true_or, if_true]
        · simp only [hdir, hdc, h1, Bool.not_false, Bool.or_true, if_true]

/-- Witness for C7 (amended), at the concrete roster: a nonexistent
specified drive and the denied specified drive `wDrvA` both answer 404
`drive not found`; a nonexistent dir, a dir on the denied containing
drive resolved without a `driveUUID`, and the same dir resolved under the
accessible specified drive `wDrvB` all answer 404 `dir not found`. -/
theorem C7_dir_denial_indistinguishable_witness :
    DIR wSt wUser (some wMissing) wD3 = .err "drive not found" 404
  ∧ DIR wSt wUser (some wR1) wD3 = .err "drive not found" 404
  ∧ DIR wSt wUser none wMissing = .err "dir not found" 404
  ∧ DIR wSt wUser none wR1 = .err "dir not found" 404
  ∧ DIR wSt wUser (some wRW) wR1 = .err "dir not found" 404 :=
  ⟨(C7_dir_denial_indistinguishable wSt wUser (some wMissing) wD3).1 wMissing rfl
     (Or.inl (by decide)),
   (C7_dir_denial_indistinguishable wSt wUser (some wR1) wD3).1 wR1 rfl
     (Or.inr ⟨wDrvA, by decide, Or.inr (by decide)⟩),
   ((C7_dir_denial_indistinguishable wSt wUser none wMissing).2 (Or.inl rfl)).1
     (by decide),
   ((C7_dir_denial_indistinguishable wSt wUser none wR1).2 (Or.inl rfl)).2 wDirR1
     (by decide) (Or.inr ⟨wDrvA, by decide, Or.inr (by decide)⟩),
   ((C7_dir_denial_indistinguishable wSt wUser (some wRW) wR1).2
       (Or.inr ⟨wRW, wDrvB, rfl, by decide, by decide, by decide⟩)).2 wDirR1
     (by decide) (Or.inr ⟨wDrvA, by decide, Or.inr (by decide)⟩)⟩

/-- C9 counterexample: even the smallest possible chronological result set
- an empty listing - is delivered as the path to a temp file holding the
serialized (empty) JSON array, never as an in-memory record array. -/
theorem C9_counterexample :
    iterateList [] "newest" none none [wR1] none none none false none =
      .tmpFile []
  ∧ (IterOut.tmpFile []).isTmpFile = true := by
  refine ⟨rfl, rfl⟩

/-- C9 (amended): every chronological QUERY that is not countOnly delivers
its result as the path to a temp file containing the serialized JSON array
of records, regardless of the result's size; only countOnly results (a
count, or per-place counts under groupBy) are delivered in memory. -/
theorem C9_chrono_delivery (files : List TFile) (order : String)
    (start : Option (Int × String × Bool)) (count : Option Nat)
    (places : List String) (typesQ : Option (List String))
    (tagsQ : Option (List (Option Int))) (nameQ : Option String)
    (groupBy : Option String) :
    (iterateList files order start count places typesQ tagsQ nameQ
        false groupBy).isTmpFile = true
  ∧ (iterateList files order start count places typesQ tagsQ nameQ
        true groupBy).isTmpFile = false := by
  constructor
  · simp only [iterateList, Bool.false_eq_true, if_false]
    rfl
  · simp only [iterateList, if_true]
    split <;> rfl

/-- C1: QUERY does *not* reject a place that exists but whose containing
drive the caller cannot write.  The permission-check loop at VFS.js 1058
reads `for (let i = 0; i < places; i++)`, comparing the index against the
places *array*; the array coerces to NaN, the guard is always false, and
the loop body never runs.  At this concrete input the place exists, the
caller cannot write its drive, yet QUERY succeeds and returns the record
of a file stored under that place instead of failing 400
`place not found`. -/
theorem C1_query_unwritable_place_not_rejected :
    userCanWriteDrive wUser wDrvA = false
  ∧ lookupDir wSt wR1 = some wDirR1
  ∧ permCheckIterations [wR1] = 0
  ∧ QUERY wSt wUser [wFileA]
      ⟨some wR1, none, none, none, none, none, none, none, none, none, none,
        none, none⟩ = .done (.tmpFile [wFileA]) := by
  refine ⟨by decide, by decide, by decide, by decide⟩

/-- A well-formed place string has a hyphen at offset 8. -/
theorem isUUIDm_data_get8 {s : String} (h : isUUIDm s = true) :
    s.data.get? 8 = some '-' := by
  rw [isUUIDm, Bool.and_eq_true, List.all_eq_true] at h
  have h8 := h.2 8 (by decide)
  simpa using h8

/-- A well-formed place string starts with a lowercase hex character. -/
theorem isUUIDm_head_hex {s : String} (h : isUUIDm s = true) :
    ∃ c, s.data.get? 0 = some c ∧ isHexLower c = true := by
  rw [isUUIDm, Bool.and_eq_true, List.all_eq_true] at h
  have h0 := h.2 0 (by decide)
  simp only [show ¬(0 = 8 ∨ 0 = 13 ∨ 0 = 18 ∨ 0 = 23) from by omega] at h0
  cases hd : s.data.get? 0 with
  | none => rw [hd] at h0; simp at h0
  | some c =>
    rw [hd] at h0
    exact ⟨c, rfl, by simpa using h0⟩

/-- The data of a join starting at `p` extends `p`'s data. -/
theorem jsJoin_cons_data (p : String) (rest : List String) :
    ∃ t, (jsJoin ',' (p :: rest)).data = p.data ++ t := by
  cases rest with
  | nil => exact ⟨[], by simp [jsJoin]⟩
  | cons q r =>
    refine ⟨[','] ++ (jsJoin ',' (q :: r)).data, ?_⟩
    show (p ++ ⟨[',']⟩ ++ jsJoin ',' (q :: r)).data = _
    simp [String.data_append]

/-- The comma-join of a place list headed by a well-formed place never
coerces to a number: its head character is a hex character (so no sign is
parsed) and its ninth character is a hyphen (so it is not a digit run). -/
theorem jsStrToNumber_uuid_join (p : String) (rest : List String)
    (hp : isUUIDm p = true) :
    jsStrToNumber (jsJoin ',' (p :: rest)) = none := by
  obtain ⟨t, ht⟩ := jsJoin_cons_data p rest
  obtain ⟨c, hc0, hchex⟩ := isUUIDm_head_hex hp
  have h8 : p.data.get? 8 = some '-' := isUUIDm_data_get8 hp
  obtain ⟨tl, hpd⟩ : ∃ tl, p.data = c :: tl := by
    cases hpdata : p.data with
    | nil => rw [hpdata] at hc0; simp at hc0
    | cons d tl =>
      rw [hpdata] at hc0
      simp only [List.get?_cons_zero, Option.some.injEq] at hc0
      exact ⟨tl, by rw [hc0]⟩
  have hcd : c ≠ '-' := fun hh => by rw [hh] at hchex; exact absurd hchex (by decide)
  have hcp : c ≠ '+' := fun hh => by rw [hh] at hchex; exact absurd hchex (by decide)
  have hdash : '-' ∈ c :: (tl ++ t) := by
    have hmem : '-' ∈ p.data := List.get?_mem h8
    rw [hpd] at hmem
    rcases List.mem_cons.mp hmem with hh | hh
    · exact List.mem_cons.mpr (Or.inl hh)
    · exact List.mem_cons.mpr (Or.inr (List.mem_append.mpr (Or.inl hh)))
  have hall : ((c :: (tl ++ t)).all Char.isDigit) = false := by
    cases hAll : (c :: (tl ++ t)).all Char.isDigit
    · rfl
    · exact absurd (List.all_eq_true.mp hAll '-' hdash) (by decide)
  rw [jsStrToNumber]
  rw [ht, hpd, List.cons_append]
  simp only [hcd, hcp, if_false, hall, Bool.false_eq_true]

/-- The permission-check loop of QUERY (VFS.js 1058-1066) never executes
for any place list that passed the uuid validation: the guard
`i < places` compares the index with the array, the array coerces to NaN,
and the loop body is dead code - so no `place not found` error can ever
come out of it. -/
theorem placeCheck_loop_is_dead (places : List String)
    (hne : places ≠ []) (hall : ∀ p ∈ places, isUUIDm p = true) :
    permCheckIterations places = 0
  ∧ ∀ (st : VfsState) (user : UserRec), placeCheckError st user places = none := by
  obtain ⟨p, rest, rfl⟩ := List.exists_cons_of_ne_nil hne
  have hnum := jsStrToNumber_uuid_join p rest (hall p (List.mem_cons.mpr (Or.inl rfl)))
  have hiter : permCheckIterations (p :: rest) = 0 := by
    rw [permCheckIterations, hnum]
  refine ⟨hiter, fun st user => ?_⟩
  rw [placeCheckError, hiter]
  rfl

/-- Tag store for the tag-mutation theorems: two live tags owned by `u1`. -/
def wStore : List TagRec := [⟨1, "u1", false⟩, ⟨2, "u1", false⟩]

/-- C6 counterexample: ADDTAGS then REMOVETAGS with the same tag set does
*not* restore the prior tag set when that set intersects T.  With prior
tags `[1]` and `T = [1]`, ADDTAGS is a no-op (the union has the same
length), but REMOVETAGS strips tag 1, leaving `[]` - not the prior
value. -/
theorem C6_counterexample :
    (ADDTAGSo wStore wSt wUser none wRW (some [1]) ⟨"file", "fa", some [1]⟩).stored
      = some [1]
  ∧ (REMOVETAGSo wStore wSt wUser none wRW (some [1])
      ⟨"file", "fa",
       (ADDTAGSo wStore wSt wUser none wRW (some [1]) ⟨"file", "fa", some [1]⟩).stored⟩).stored
      = some []
  ∧ (some ([] : List Int) ≠ some [1]) := by
  refine ⟨by decide, by decide, by decide⟩

/-- C6 (amended): ADDTAGS with a valid tag set T followed by REMOVETAGS
with the same T restores the file's tag set - as a set of tag ids -
provided T is disjoint from the file's prior tag set.  When T intersects
the prior set, REMOVETAGS also strips the pre-existing intersecting tags
(see the counterexample), so the restriction to disjoint T is necessary. -/
theorem C6_tags_roundtrip_disjoint (store : List TagRec) (st : VfsState)
    (user : UserRec) (driveUUID : Option String) (dirUUID : String)
    (T : List Int) (file : FileTagState) (d : DirNode)
    (hvalid : tagsInvalid (some T) = false)
    (hfound : firstMissingTag store user.uuid T = none)
    (hdir : DIR st user driveUUID dirUUID = .ok d)
    (hfile : file.typ = "file")
    (hdisj : ∀ t ∈ T, t ∉ file.tags.getD [])
    (t : Int) :
    t ∈ ((REMOVETAGSo store st user driveUUID dirUUID (some T)
          ⟨file.typ, file.uuid,
           (ADDTAGSo store st user driveUUID dirUUID (some T) file).stored⟩).stored.getD [])
    ↔ t ∈ file.tags.getD [] := by
  have hcont : ∀ x, x ∈ file.tags.getD [] → ¬(normTags T).contains x := by
    intro x hx hc
    exact hdisj x ((mem_normTags x T).mp (List.elem_iff.mp hc)) hx
  by_cases hmut :
      (normTags (file.tags.getD [] ++ normTags T)).length = (file.tags.getD []).length
  · -- ADDTAGS skipped the write: the stored tags stay `file.tags`.
    simp only [ADDTAGSo, REMOVETAGSo, hvalid, Bool.false_eq_true, if_false, hfound,
      hdir, hfile, ne_eq, not_true_eq_false, Option.getD_some, hmut, if_true]
    match hft : file.tags with
    | none => simp
    | some old =>
      simp only [Option.getD_some, List.mem_filter]
      constructor
      · rintro ⟨h, _⟩; exact h
      · intro h
        refine ⟨h, ?_⟩
        have := hcont t (by rw [hft]; simpa using h)
        simpa using this
  · -- ADDTAGS stored the sorted union; REMOVETAGS filters T back out.
    simp only [ADDTAGSo, REMOVETAGSo, hvalid, Bool.false_eq_true, if_false, hfound,
      hdir, hfile, ne_eq, not_true_eq_false, Option.getD_some, hmut, if_false]
    simp only [List.mem_filter, mem_normTags, List.mem_append]
    constructor
    · rintro ⟨h | h, hc⟩
      · exact h
      · exact absurd ((mem_normTags t T).mpr (by simpa using h)) (by simpa using hc)
    · intro h
      refine ⟨Or.inl h, ?_⟩
      have := hcont t h
      simpa using this

/-- Witness for C6 (amended): prior tags `[1]`, `T = [2]` (disjoint), tag 1
survives the round trip. -/
theorem C6_tags_roundtrip_disjoint_witness :
    (1 : Int) ∈ ((REMOVETAGSo wStore wSt wUser none wRW (some [2])
        ⟨FileTagState.typ ⟨"file", "fa", some [1]⟩, FileTagState.uuid ⟨"file", "fa", some [1]⟩,
         (ADDTAGSo wStore wSt wUser none wRW (some [2])
            ⟨"file", "fa", some [1]⟩).stored⟩).stored.getD [])
    ↔ (1 : Int) ∈ (FileTagState.tags ⟨"file", "fa", some [1]⟩).getD [] :=
  C6_tags_roundtrip_disjoint wStore wSt wUser none wRW [2] ⟨"file", "fa", some [1]⟩
    wDirRW (by decide) (by decide) (by decide) rfl (by decide) 1

/-- C5: a chronological QUERY scan with order `newest`, no start cursor and
a positive count `n` over the `(mtime, uuid)`-sorted sequence delivers
exactly the `n` most-recently-modified files passing the name/type/tag/
place filters (fewer only if the matches are exhausted), in strictly
decreasing `(mtime, uuid)` order: the result is the `n`-prefix of the
reversed filtered sequence, it is pairwise strictly decreasing, its length
is `min n` (number of matches), and every matching file left out is
strictly older than every file returned. -/
theorem C5_query_newest_returns_topn (files : List TFile) (places : List String)
    (typesQ : Option (List String)) (tagsQ : Option (List (Option Int)))
    (nameQ : Option String) (n : Nat)
    (hn : 0 < n)
    (hsorted : files.Pairwise keyLt) :
    ∃ res : List TFile,
      iterateList files "newest" none (some n) places typesQ tagsQ nameQ false none =
        .tmpFile res
      ∧ res = ((files.filter (matchFile nameQ typesQ tagsQ places)).reverse).take n
      ∧ res.Pairwise (fun a b => keyLt b a)
      ∧ res.length = min n (files.filter (matchFile nameQ typesQ tagsQ places)).length
      ∧ (∀ x ∈ files, matchFile nameQ typesQ tagsQ places x = true → x ∉ res →
          ∀ y ∈ res, keyLt x y) := by
  set p := matchFile nameQ typesQ tagsQ places with hp
  have hiter : iterateList files "newest" none (some n) places typesQ tagsQ nameQ false none
      = .tmpFile ((files.filter p).reverse.take n) := by
    rw [iterateList]
    simp only [← hp, Bool.false_eq_true, if_false, if_pos rfl]
    congr 1
    by_cases h0 : files.length = 0
    · rw [if_pos h0, List.length_eq_zero.mp h0]
      simp
    · rw [if_neg h0]
      have hlen : files.length - 1 < files.length := by omega
      rw [scanDownFrom_eq files p (some n) _ hlen 0]
      have hsucc : files.length - 1 + 1 = files.length := by omega
      rw [hsucc, List.take_length, scanCollect_count p n _ 0 hn]
      simp [List.filter_reverse]
  refine ⟨_, hiter, rfl, ?_, ?_, ?_⟩
  · exact List.Pairwise.sublist (List.take_sublist _ _)
      (List.pairwise_reverse.mpr (hsorted.filter p))
  · simp [List.length_take]
  · intro x hx hpx hxnot y hy
    have hLsorted : ((files.filter p).reverse).Pairwise (fun a b => keyLt b a) :=
      List.pairwise_reverse.mpr (hsorted.filter p)
    have hxL : x ∈ (files.filter p).reverse := by
      rw [List.mem_reverse, List.mem_filter]
      exact ⟨hx, hpx⟩
    have hsplit : (files.filter p).reverse =
        ((files.filter p).reverse).take n ++ ((files.filter p).reverse).drop n :=
      (List.take_append_drop n _).symm
    have hxdrop : x ∈ ((files.filter p).reverse).drop n := by
      rcases List.mem_append.mp (hsplit ▸ hxL) with h | h
      · exact absurd h hxnot
      · exact h
    have hpw := hsplit ▸ hLsorted
    exact (List.pairwise_append.mp hpw).2.2 y hy x hxdrop

/-- Witness for C5: two files under the public root, sorted by mtime;
`count = 1` returns the newer one. -/
theorem C5_query_newest_returns_topn_witness :
    ∃ res : List TFile,
      iterateList [⟨"f0", "a.jpg", 1, 100, none, none, none, [wRW]⟩,
                   ⟨"f1", "b.jpg", 1, 200, none, none, none, [wRW]⟩]
          "newest" none (some 1) [wRW] none none none false none = .tmpFile res
      ∧ res = (([⟨"f0", "a.jpg", 1, 100, none, none, none, [wRW]⟩,
                 ⟨"f1", "b.jpg", 1, 200, none, none, none, [wRW]⟩].filter
          (matchFile none none none [wRW])).reverse).take 1
      ∧ res.Pairwise (fun a b => keyLt b a)
      ∧ res.length = min 1 ([⟨"f0", "a.jpg", 1, 100, none, none, none, [wRW]⟩,
                 ⟨"f1", "b.jpg", 1, 200, none, none, none, [wRW]⟩].filter
          (matchFile none none none [wRW])).length
      ∧ (∀ x ∈ [⟨"f0", "a.jpg", 1, 100, none, none, none, [wRW]⟩,
                ⟨"f1", "b.jpg", 1, 200, none, none, none, [wRW]⟩],
          matchFile none none none [wRW] x = true → x ∉ res → ∀ y ∈ res, keyLt x y) :=
  C5_query_newest_returns_topn
    [⟨"f0", "a.jpg", 1, 100, none, none, none, [wRW]⟩,
     ⟨"f1", "b.jpg", 1, 200, none, none, none, [wRW]⟩]
    [wRW] none none none 1 (by decide)
    (by constructor
        · intro b hb
          simp only [List.mem_singleton] at hb
          subst hb
          exact Or.inl (by decide)
        · exact List.pairwise_singleton _ _)

end Winas
